import Mathlib

set_option maxRecDepth 10000

/-!
Shallow embedding of the RP_Log ring-buffer logging facility
(`RP_Log.c` / `RP_Log.h`, SZU RobotPilots).

Modelling conventions:
* C byte strings are `List Char` (all bytes involved are ASCII).
* `uint16_t` indices and counts are `Nat`; every mutation in the source
  either applies `% RP_LOG_RING_BUFFER_CNT` or is guarded below the
  capacity, so no 16-bit wraparound is reachable and `Nat` is faithful.
* Fallible C functions returning `0 / -1` return an `Int` status
  (paired with the updated state, since C mutates through pointers).
* The `RP_Log_t *log` pointer is `Option RP_Log_t`; `none` models `NULL`.
* `HAL_GetTick()` (external tick source) is an explicit `ticks : Nat`
  argument; `RP_Log_Transmit` (user-supplied transport) is an explicit
  `transmit : List Char → Int` argument.
* `vsnprintf` rendering of `format, args` is abstracted by the already
  rendered message `msg : List Char`, per standard printf semantics.
-/

namespace RPLog

/-- `#define RP_LOG_ENTRY_MAX_SIZE 256` (RP_Log.h). -/
def RP_LOG_ENTRY_MAX_SIZE : Nat := 256

/-- `#define RP_LOG_RING_BUFFER_CNT 16` (RP_Log.h). -/
def RP_LOG_RING_BUFFER_CNT : Nat := 16

/-- `RP_LogLevel_t` (RP_Log.h): FATAL = 0 … TRACE = 5. -/
inductive RP_LogLevel_t where
  | FATAL | ERROR | WARN | INFO | DEBUG | TRACE
  deriving DecidableEq

/-- Numeric value of the C enum `RP_LogLevel_t`. -/
def levelNum : RP_LogLevel_t → Nat
  | .FATAL => 0
  | .ERROR => 1
  | .WARN  => 2
  | .INFO  => 3
  | .DEBUG => 4
  | .TRACE => 5

/-- `RP_LogOutputRange_t` (RP_Log.h). -/
inductive RP_LogOutputRange_t where
  | FATAL_ONLY | FATAL_TO_ERROR | FATAL_TO_WARN
  | FATAL_TO_INFO | FATAL_TO_DEBUG | ALL
  deriving DecidableEq

/-- `RP_LogConfigParam_t` (RP_Log.h). -/
structure RP_LogConfigParam_t where
  output_range : RP_LogOutputRange_t
  use_timestamp : Bool
  rtt_use_color : Bool
  deriving DecidableEq

/-- `RP_LogRingBuffer_t` (RP_Log.h).  Each entry of `entries` is the
meaningful byte content of one `RP_LogEntry_t` (its `data` array up to
its `length` field); the list always has `RP_LOG_RING_BUFFER_CNT`
elements in reachable states. -/
structure RP_LogRingBuffer_t where
  entries : List (List Char)
  head : Nat
  tail : Nat
  count : Nat
  deriving DecidableEq

/-- `RP_Log_t` (RP_Log.h), without the function-pointer table (the
pointers are constant in `g_rp_log` and carry no state). -/
structure RP_Log_t where
  config_param : RP_LogConfigParam_t
  ring_buffer : RP_LogRingBuffer_t
  deriving DecidableEq

/-- A zeroed `RP_LogRingBuffer_t` (`ring_buffer = {0}` initializer,
also the result of `memset(&log->ring_buffer, 0, ...)` in
`RP_Log_Flush`): all entry lengths 0, `head = tail = count = 0`. -/
def zeroRingBuffer : RP_LogRingBuffer_t :=
  { entries := List.replicate RP_LOG_RING_BUFFER_CNT []
    head := 0, tail := 0, count := 0 }

/-- `RB_GetNextIndex` (RP_Log.c line 69): `(index + 1) % max`. -/
def RB_GetNextIndex (index mx : Nat) : Nat :=
  (index + 1) % mx

/-- `RB_IsFull` (RP_Log.c line 75): `rb->count >= RP_LOG_RING_BUFFER_CNT`. -/
def RB_IsFull (rb : RP_LogRingBuffer_t) : Bool :=
  decide (rb.count ≥ RP_LOG_RING_BUFFER_CNT)

/-- `RB_IsEmpty` (RP_Log.c line 81): `rb->count == 0`. -/
def RB_IsEmpty (rb : RP_LogRingBuffer_t) : Bool :=
  decide (rb.count = 0)

/-- `RB_Push` (RP_Log.c lines 87–105).  The C pair `(data, length)`
is the list `data`; the clamp `length > RP_LOG_ENTRY_MAX_SIZE →
length = RP_LOG_ENTRY_MAX_SIZE` followed by `memcpy` of `length`
bytes stores `data.take RP_LOG_ENTRY_MAX_SIZE`.  Returns the updated
buffer and the C status (0 success, -1 full). -/
def RB_Push (rb : RP_LogRingBuffer_t) (data : List Char) :
    RP_LogRingBuffer_t × Int :=
  if RB_IsFull rb then (rb, -1)
  else
    ({ entries := rb.entries.set rb.head (data.take RP_LOG_ENTRY_MAX_SIZE)
       head := RB_GetNextIndex rb.head RP_LOG_RING_BUFFER_CNT
       tail := rb.tail
       count := rb.count + 1 }, 0)

/-- `RB_Pop` (RP_Log.c lines 108–121).  The C out-parameters
`(data, *length)` become the returned record; `none` models the
`-1` (empty) status. -/
def RB_Pop (rb : RP_LogRingBuffer_t) :
    RP_LogRingBuffer_t × Option (List Char) :=
  if RB_IsEmpty rb then (rb, none)
  else
    ({ entries := rb.entries
       head := rb.head
       tail := RB_GetNextIndex rb.tail RP_LOG_RING_BUFFER_CNT
       count := rb.count - 1 }, some (rb.entries.getD rb.tail []))

/-- `g_level_names` (RP_Log.c lines 32–33):
`{"FATAL", "ERROR", "WARN ", "INFO ", "DEBUG", "TRACE"}`. -/
def g_level_names : RP_LogLevel_t → List Char
  | .FATAL => "FATAL".data
  | .ERROR => "ERROR".data
  | .WARN  => "WARN ".data
  | .INFO  => "INFO ".data
  | .DEBUG => "DEBUG".data
  | .TRACE => "TRACE".data

/-- The suffix of `s` strictly after the last occurrence of `c`
(`strrchr(s, c)` followed by `+1`); `none` when `c` does not occur. -/
def afterLastOcc (c : Char) : List Char → Option (List Char)
  | [] => none
  | x :: xs =>
    match afterLastOcc c xs with
    | some r => some r
    | none => if x = c then some xs else none

/-- Filename extraction in `RP_Log_Write` (RP_Log.c lines 235–249):
`strrchr(file, '\\')` is consulted first; only when no backslash
occurs is `strrchr(file, '/')` consulted; otherwise the whole string
is kept. -/
def extractFilename (file : List Char) : List Char :=
  match afterLastOcc '\\' file with
  | some rest => rest
  | none =>
    match afterLastOcc '/' file with
    | some rest => rest
    | none => file

/-- Decimal rendering of a `Nat` (`%lu` / `%d` on the nonnegative
values produced by `HAL_GetTick()` and `__LINE__`). -/
def natDecimal (n : Nat) : List Char :=
  (Nat.repr n).data

/-- The timestamp segment `"[%lu] "` (RP_Log.c lines 256–262),
rendered from the tick count when `use_timestamp` is set. -/
def tsSegment (ticks : Nat) : List Char :=
  '[' :: natDecimal ticks ++ [']', ' ']

/-- The level/location segment `"[%s][%s:%d]: "` (RP_Log.c lines
264–266), from the level name, extracted filename and line number. -/
def locSegment (level : RP_LogLevel_t) (file : List Char) (line : Nat) :
    List Char :=
  '[' :: g_level_names level ++ ']' :: '[' :: extractFilename file ++
    ':' :: natDecimal line ++ [']', ':', ' ']

/-- The untruncated rendering accumulated into `buffer` by the three
`snprintf`/`vsnprintf` calls of `RP_Log_Write` (RP_Log.c lines
251–272); `len` in the C code is this list's length. -/
def formatFull (useTs : Bool) (ticks : Nat) (level : RP_LogLevel_t)
    (file : List Char) (line : Nat) (msg : List Char) : List Char :=
  (if useTs then tsSegment ticks else []) ++ locSegment level file line ++ msg

/-- The record handed to `RB_Push` by `RP_Log_Write` (RP_Log.c lines
274–285): overflow protection clamps `len` to
`RP_LOG_ENTRY_MAX_SIZE - 3` when `len >= RP_LOG_ENTRY_MAX_SIZE - 2`,
then `'\r' '\n'` are appended. -/
def formatRecord (useTs : Bool) (ticks : Nat) (level : RP_LogLevel_t)
    (file : List Char) (line : Nat) (msg : List Char) : List Char :=
  let full := formatFull useTs ticks level file line msg
  if full.length ≥ RP_LOG_ENTRY_MAX_SIZE - 2 then
    full.take (RP_LOG_ENTRY_MAX_SIZE - 3) ++ ['\r', '\n']
  else
    full ++ ['\r', '\n']

/-- The level filter `switch` of `RP_Log_Write` (RP_Log.c lines
207–233): `true` when the write is not rejected.  Each
`if (level > X) return -1` compares the numeric enum values. -/
def levelPass (range : RP_LogOutputRange_t) (level : RP_LogLevel_t) : Bool :=
  match range with
  | .FATAL_ONLY => decide (level = .FATAL)
  | .FATAL_TO_ERROR => !decide (levelNum level > levelNum .ERROR)
  | .FATAL_TO_WARN => !decide (levelNum level > levelNum .WARN)
  | .FATAL_TO_INFO => !decide (levelNum level > levelNum .INFO)
  | .FATAL_TO_DEBUG => !decide (levelNum level > levelNum .DEBUG)
  | .ALL => true

/-- `RP_Log_Write` (RP_Log.c lines 200–298, with `RP_LOG_USE_RTT 0`):
NULL check, level filter, formatting, then `RB_Push`.  Returns the
updated facility and the C status (0 success, -1 failure). -/
def RP_Log_Write (optLog : Option RP_Log_t) (ticks : Nat)
    (level : RP_LogLevel_t) (file : List Char) (line : Nat)
    (msg : List Char) : Option RP_Log_t × Int :=
  match optLog with
  | none => (none, -1)
  | some log =>
    if levelPass log.config_param.output_range level then
      let record :=
        formatRecord log.config_param.use_timestamp ticks level file line msg
      let pushed := RB_Push log.ring_buffer record
      if pushed.2 ≠ 0 then (some { log with ring_buffer := pushed.1 }, -1)
      else (some { log with ring_buffer := pushed.1 }, 0)
    else (some log, -1)

/-- `RP_Log_Work` (RP_Log.c lines 305–324).  `transmit` is the
user-supplied `RP_Log_Transmit`; on a nonzero transmit status the
popped record is pushed back.  The second component is the record
passed to `transmit` this call (`none` when the buffer was empty) —
an observation of the external call, not a C return value. -/
def RP_Log_Work (transmit : List Char → Int) (optLog : Option RP_Log_t) :
    Option RP_Log_t × Option (List Char) :=
  match optLog with
  | none => (none, none)
  | some log =>
    match RB_Pop log.ring_buffer with
    | (_, none) => (some log, none)
    | (rb1, some record) =>
      if transmit record ≠ 0 then
        (some { log with ring_buffer := (RB_Push rb1 record).1 }, some record)
      else
        (some { log with ring_buffer := rb1 }, some record)

/-- `RP_Log_GetCount` (RP_Log.c lines 331–338): 0 on NULL, else
`log->ring_buffer.count`. -/
def RP_Log_GetCount (optLog : Option RP_Log_t) : Nat :=
  match optLog with
  | none => 0
  | some log => log.ring_buffer.count

/-- `RP_Log_Flush` (RP_Log.c lines 345–352): no-op on NULL, else
`memset(&log->ring_buffer, 0, sizeof(RP_LogRingBuffer_t))`. -/
def RP_Log_Flush (optLog : Option RP_Log_t) : Option RP_Log_t :=
  match optLog with
  | none => none
  | some log => some { log with ring_buffer := zeroRingBuffer }

/-! ### Operation sequences over the ring buffer -/

/-- One ring-buffer operation: a `RB_Push` of some record, or a `RB_Pop`. -/
inductive RBOp where
  | push : List Char → RBOp
  | pop : RBOp

/-- The state transition of one operation (the status / popped record
is discarded; on failure the state is unchanged). -/
def applyOp (rb : RP_LogRingBuffer_t) : RBOp → RP_LogRingBuffer_t
  | .push d => (RB_Push rb d).1
  | .pop => (RB_Pop rb).1

/-- The state after running a sequence of operations from `rb`. -/
def runOps (rb : RP_LogRingBuffer_t) (ops : List RBOp) : RP_LogRingBuffer_t :=
  ops.foldl applyOp rb

/-! ### Helper lemmas -/

lemma applyOp_bounds (rb : RP_LogRingBuffer_t) (op : RBOp)
    (h : rb.count ≤ RP_LOG_RING_BUFFER_CNT ∧
      rb.head < RP_LOG_RING_BUFFER_CNT ∧ rb.tail < RP_LOG_RING_BUFFER_CNT) :
    (applyOp rb op).count ≤ RP_LOG_RING_BUFFER_CNT ∧
      (applyOp rb op).head < RP_LOG_RING_BUFFER_CNT ∧
      (applyOp rb op).tail < RP_LOG_RING_BUFFER_CNT := by
  obtain ⟨h1, h2, h3⟩ := h
  cases op with
  | push d =>
    simp only [applyOp, RB_Push, RB_IsFull, RB_GetNextIndex]
    split
    · exact ⟨h1, h2, h3⟩
    · rename_i hfull
      simp only [decide_eq_true_eq, ge_iff_le, not_le] at hfull
      dsimp only
      refine ⟨by omega, ?_, h3⟩
      simp only [RP_LOG_RING_BUFFER_CNT] at *
      omega
  | pop =>
    simp only [applyOp, RB_Pop, RB_IsEmpty, RB_GetNextIndex]
    split
    · exact ⟨h1, h2, h3⟩
    · dsimp only
      refine ⟨by omega, h2, ?_⟩
      simp only [RP_LOG_RING_BUFFER_CNT] at *
      omega

lemma runOps_bounds (ops : List RBOp) (rb : RP_LogRingBuffer_t)
    (h : rb.count ≤ RP_LOG_RING_BUFFER_CNT ∧
      rb.head < RP_LOG_RING_BUFFER_CNT ∧ rb.tail < RP_LOG_RING_BUFFER_CNT) :
    (runOps rb ops).count ≤ RP_LOG_RING_BUFFER_CNT ∧
      (runOps rb ops).head < RP_LOG_RING_BUFFER_CNT ∧
      (runOps rb ops).tail < RP_LOG_RING_BUFFER_CNT := by
  induction ops generalizing rb with
  | nil => exact h
  | cons op ops ih => exact ih _ (applyOp_bounds rb op h)

/-! ### Claim theorems -/

/-- C1: for every sequence of `RB_Push` / `RB_Pop` operations starting
from the zeroed ring buffer, `count` stays within
`0 ≤ count ≤ RP_LOG_RING_BUFFER_CNT` (`count : Nat`, and the C code
decrements it only when nonzero, so nonnegativity is faithful), `head`
and `tail` stay below `RP_LOG_RING_BUFFER_CNT`; a push on a full buffer
returns -1 and leaves the buffer unchanged; a pop on an empty buffer
returns the empty status and leaves the buffer unchanged. -/
theorem rb_invariants :
    (∀ ops : List RBOp,
      (runOps zeroRingBuffer ops).count ≤ RP_LOG_RING_BUFFER_CNT ∧
      (runOps zeroRingBuffer ops).head < RP_LOG_RING_BUFFER_CNT ∧
      (runOps zeroRingBuffer ops).tail < RP_LOG_RING_BUFFER_CNT) ∧
    (∀ rb d, rb.count = RP_LOG_RING_BUFFER_CNT → RB_Push rb d = (rb, -1)) ∧
    (∀ rb, rb.count = 0 → RB_Pop rb = (rb, none)) := by
  refine ⟨fun ops => runOps_bounds ops zeroRingBuffer (by decide), ?_, ?_⟩
  · intro rb d h
    simp [RB_Push, RB_IsFull, h]
  · intro rb h
    simp [RB_Pop, RB_IsEmpty, h]

/-- Witness for C1: a concrete full buffer rejects a push unchanged and
the zeroed (empty) buffer rejects a pop unchanged. -/
theorem rb_invariants_witness :
    RB_Push { zeroRingBuffer with count := RP_LOG_RING_BUFFER_CNT } ['a'] =
      ({ zeroRingBuffer with count := RP_LOG_RING_BUFFER_CNT }, -1) ∧
    RB_Pop zeroRingBuffer = (zeroRingBuffer, none) :=
  ⟨rb_invariants.2.1 _ ['a'] rfl, rb_invariants.2.2 zeroRingBuffer rfl⟩

/-- Spec-side definition (§4.3 of the spec): the maximum-severity level
each configured output range admits. -/
def configuredMaximum : RP_LogOutputRange_t → RP_LogLevel_t
  | .FATAL_ONLY => .FATAL
  | .FATAL_TO_ERROR => .ERROR
  | .FATAL_TO_WARN => .WARN
  | .FATAL_TO_INFO => .INFO
  | .FATAL_TO_DEBUG => .DEBUG
  | .ALL => .TRACE

/-- C4: the level filter accepts exactly the levels numerically at most
the configured maximum (FATAL=0 < … < TRACE=5; `ALL` has maximum TRACE
so it admits every level, `FATAL_ONLY` has maximum FATAL so it admits
only FATAL); with `output_range = FATAL_TO_WARN` a write at INFO
returns -1 leaving the facility (hence its count) unchanged, and a
write at WARN with room succeeds and increments the count by one. -/
theorem levelFilter_correct :
    (∀ range level,
      levelPass range level =
        decide (levelNum level ≤ levelNum (configuredMaximum range))) ∧
    (∀ (log : RP_Log_t) ticks file line msg,
      log.config_param.output_range = .FATAL_TO_WARN →
      RP_Log_Write (some log) ticks .INFO file line msg = (some log, -1) ∧
      (log.ring_buffer.count < RP_LOG_RING_BUFFER_CNT →
        (RP_Log_Write (some log) ticks .WARN file line msg).2 = 0 ∧
        RP_Log_GetCount (RP_Log_Write (some log) ticks .WARN file line msg).1 =
          log.ring_buffer.count + 1)) := by
  constructor
  · intro range level
    cases range <;> cases level <;> rfl
  · intro log ticks file line msg hrange
    constructor
    · simp [RP_Log_Write, hrange, levelPass, levelNum]
    · intro hroom
      have hfull : RB_IsFull log.ring_buffer = false := by
        simp [RB_IsFull]
        omega
      constructor
      · simp [RP_Log_Write, hrange, levelPass, levelNum, RB_Push, hfull]
      · simp [RP_Log_Write, hrange, levelPass, levelNum, RB_Push, hfull,
          RP_Log_GetCount]

/-- Witness for C4: with range `FATAL_TO_WARN` on the zeroed facility,
an INFO write is rejected unchanged and a WARN write yields count 1. -/
theorem levelFilter_correct_witness :
    RP_Log_Write
        (some ⟨⟨.FATAL_TO_WARN, true, true⟩, zeroRingBuffer⟩) 0 .INFO
        "t.c".data 1 "m".data =
      (some ⟨⟨.FATAL_TO_WARN, true, true⟩, zeroRingBuffer⟩, -1) ∧
    (RP_Log_Write
        (some ⟨⟨.FATAL_TO_WARN, true, true⟩, zeroRingBuffer⟩) 0 .WARN
        "t.c".data 1 "m".data).2 = 0 ∧
    RP_Log_GetCount
        (RP_Log_Write
          (some ⟨⟨.FATAL_TO_WARN, true, true⟩, zeroRingBuffer⟩) 0 .WARN
          "t.c".data 1 "m".data).1 = zeroRingBuffer.count + 1 := by
  refine ⟨(levelFilter_correct.2 _ 0 "t.c".data 1 "m".data rfl).1, ?_, ?_⟩
  · exact ((levelFilter_correct.2 _ 0 "t.c".data 1 "m".data rfl).2
      (by decide)).1
  · exact ((levelFilter_correct.2 _ 0 "t.c".data 1 "m".data rfl).2
      (by decide)).2

/-- C8: flushing twice leaves `get_count` at 0 after each call, the
doubly-flushed facility's buffer is exactly the zeroed buffer (head,
tail and count zeroed), and a push on the zeroed buffer succeeds. -/
theorem flush_twice_resets (log : RP_Log_t) (d : List Char) :
    RP_Log_GetCount (RP_Log_Flush (some log)) = 0 ∧
    RP_Log_GetCount (RP_Log_Flush (RP_Log_Flush (some log))) = 0 ∧
    RP_Log_Flush (RP_Log_Flush (some log)) =
      some { log with ring_buffer := zeroRingBuffer } ∧
    (RB_Push zeroRingBuffer d).2 = 0 :=
  ⟨rfl, rfl, rfl, rfl⟩

/-- C9: every public operation on a NULL facility pointer is a safe
no-op: `write` returns -1, `get_count` returns 0, and `work` and
`flush` return without producing or touching any state. -/
theorem null_ops_safe :
    (∀ ticks level file line msg,
      RP_Log_Write none ticks level file line msg = (none, -1)) ∧
    RP_Log_GetCount none = 0 ∧
    (∀ transmit, RP_Log_Work transmit none = (none, none)) ∧
    RP_Log_Flush none = none :=
  ⟨fun _ _ _ _ _ => rfl, rfl, fun _ => rfl, rfl⟩

/-- C10: after a successful pop the buffer cannot be full (`count` was
decremented), so the re-push performed by `RP_Log_Work` on a transport
failure succeeds: it returns 0, stores the record at the write index,
and restores the pre-pop count — the popped record is never lost. -/
theorem work_repush_succeeds (rb : RP_LogRingBuffer_t) (rec : List Char)
    (hcount : rb.count ≤ RP_LOG_RING_BUFFER_CNT) (hne : rb.count ≠ 0)
    (hhead : rb.head < RP_LOG_RING_BUFFER_CNT)
    (hlen : rb.entries.length = RP_LOG_RING_BUFFER_CNT) :
    RB_IsFull (RB_Pop rb).1 = false ∧
    (RB_Push (RB_Pop rb).1 rec).2 = 0 ∧
    (RB_Push (RB_Pop rb).1 rec).1.entries.getD rb.head [] =
      rec.take RP_LOG_ENTRY_MAX_SIZE ∧
    (RB_Push (RB_Pop rb).1 rec).1.count = rb.count := by
  have hempty : RB_IsEmpty rb = false := by
    simp [RB_IsEmpty, hne]
  have hpop : (RB_Pop rb).1 =
      { entries := rb.entries, head := rb.head
        tail := RB_GetNextIndex rb.tail RP_LOG_RING_BUFFER_CNT
        count := rb.count - 1 } := by
    simp [RB_Pop, hempty]
  have hfull : RB_IsFull (RB_Pop rb).1 = false := by
    rw [hpop]
    simp only [RB_IsFull, decide_eq_false_iff_not, ge_iff_le, not_le]
    omega
  refine ⟨hfull, ?_, ?_, ?_⟩
  · simp [RB_Push, hfull]
  · simp only [RB_Push, hfull, Bool.false_eq_true, if_false]
    rw [hpop]
    dsimp only
    rw [List.getD_eq_getElem?_getD,
      List.getElem?_set_self (by rw [hlen]; exact hhead), Option.getD_some]
  · simp only [RB_Push, hfull, Bool.false_eq_true, if_false]
    rw [hpop]
    dsimp only
    omega

/-- Witness for C10: popping the single record of a concrete buffer
and re-pushing it succeeds and restores the count. -/
theorem work_repush_succeeds_witness :
    RB_IsFull (RB_Pop { zeroRingBuffer with count := 1 }).1 = false ∧
    (RB_Push (RB_Pop { zeroRingBuffer with count := 1 }).1 ['x']).2 = 0 ∧
    (RB_Push (RB_Pop { zeroRingBuffer with count := 1 }).1
        ['x']).1.entries.getD 0 [] = (['x'] : List Char).take 256 ∧
    (RB_Push (RB_Pop { zeroRingBuffer with count := 1 }).1 ['x']).1.count = 1 :=
  work_repush_succeeds { zeroRingBuffer with count := 1 } ['x']
    (by decide) (by decide) (by decide) (by decide)

/-- Counterexample to C2 as stated: the claim quantifies over any
buffer with at least three free slots, but when the buffer already
holds an older record the first of the three pops returns that older
record, not A.  Concretely, push `['d']` into the zeroed buffer (15
free slots remain), then push `['a'], ['b'], ['c']` with no
intervening pops: the first pop returns `['d']`, not `['a']`. -/
theorem fifo_counterexample :
    (RB_Pop ((RB_Push ((RB_Push ((RB_Push ((RB_Push zeroRingBuffer
        ['d']).1) ['a']).1) ['b']).1) ['c']).1)).2 = some ['d'] ∧
    (['d'] : List Char) ≠ ['a'] := by
  constructor
  · rfl
  · decide

/-- C2 amended: three records pushed in order into an *empty* ring
buffer (in a consistent state: `count = 0`, `head = tail` in range,
`RP_LOG_RING_BUFFER_CNT` entry slots) are returned by the next three
pops in FIFO order A, B, C. -/
theorem fifo_from_empty (rb : RP_LogRingBuffer_t) (A B C : List Char)
    (hc : rb.count = 0) (hht : rb.head = rb.tail)
    (hh : rb.head < RP_LOG_RING_BUFFER_CNT)
    (hlen : rb.entries.length = RP_LOG_RING_BUFFER_CNT)
    (hA : A.length ≤ RP_LOG_ENTRY_MAX_SIZE)
    (hB : B.length ≤ RP_LOG_ENTRY_MAX_SIZE)
    (hC : C.length ≤ RP_LOG_ENTRY_MAX_SIZE) :
    (RB_Pop ((RB_Push ((RB_Push ((RB_Push rb A).1) B).1) C).1)).2 = some A ∧
    (RB_Pop (RB_Pop ((RB_Push ((RB_Push ((RB_Push rb A).1) B).1)
        C).1)).1).2 = some B ∧
    (RB_Pop (RB_Pop (RB_Pop ((RB_Push ((RB_Push ((RB_Push rb A).1) B).1)
        C).1)).1).1).2 = some C := by
  obtain ⟨e, hd, tl, cnt⟩ := rb
  simp only at hc hht hh hlen
  subst hc hht
  have h16 : RP_LOG_RING_BUFFER_CNT = 16 := rfl
  rw [h16] at hh hlen
  have htakeA : A.take RP_LOG_ENTRY_MAX_SIZE = A := List.take_of_length_le hA
  have htakeB : B.take RP_LOG_ENTRY_MAX_SIZE = B := List.take_of_length_le hB
  have htakeC : C.take RP_LOG_ENTRY_MAX_SIZE = C := List.take_of_length_le hC
  have hp3 : ((RB_Push ((RB_Push ((RB_Push ⟨e, hd, hd, 0⟩ A).1) B).1) C).1 :
      RP_LogRingBuffer_t) =
      { entries :=
          ((e.set hd A).set ((hd + 1) % 16) B).set (((hd + 1) % 16 + 1) % 16) C
        head := (((hd + 1) % 16 + 1) % 16 + 1) % 16
        tail := hd
        count := 3 } := by
    simp [RB_Push, RB_IsFull, RB_GetNextIndex, h16, htakeA, htakeB, htakeC]
  have hne10 : (hd + 1) % 16 ≠ hd := by omega
  have hne20 : (hd + 1 + 1) % 16 ≠ hd := by omega
  have hne21 : (hd + 1 + 1) % 16 ≠ (hd + 1) % 16 := by omega
  have hlt1 : (hd + 1) % 16 < 16 := by omega
  rw [hp3]
  refine ⟨?_, ?_, ?_⟩
  · simp only [RB_Pop, RB_IsEmpty, RB_GetNextIndex]
    norm_num
    rw [List.getElem?_set_ne hne20, List.getElem?_set_ne hne10,
      List.getElem?_set_self (by rw [hlen]; exact hh), Option.getD_some]
  · simp only [RB_Pop, RB_IsEmpty, RB_GetNextIndex, h16]
    norm_num
    rw [List.getElem?_set_ne hne21,
      List.getElem?_set_self (by simpa [hlen] using hlt1), Option.getD_some]
  · simp only [RB_Pop, RB_IsEmpty, RB_GetNextIndex, h16]
    norm_num
    rw [List.getElem?_set_self (by simp [hlen]; omega), Option.getD_some]

/-- Witness for C2's amended theorem: pushing `['a'], ['b'], ['c']`
into the zeroed buffer and popping three times returns them in order. -/
theorem fifo_from_empty_witness :
    (RB_Pop ((RB_Push ((RB_Push ((RB_Push zeroRingBuffer ['a']).1)
        ['b']).1) ['c']).1)).2 = some ['a'] ∧
    (RB_Pop (RB_Pop ((RB_Push ((RB_Push ((RB_Push zeroRingBuffer ['a']).1)
        ['b']).1) ['c']).1)).1).2 = some ['b'] ∧
    (RB_Pop (RB_Pop (RB_Pop ((RB_Push ((RB_Push ((RB_Push zeroRingBuffer
        ['a']).1) ['b']).1) ['c']).1)).1).1).2 = some ['c'] :=
  fifo_from_empty zeroRingBuffer ['a'] ['b'] ['c'] rfl rfl (by decide)
    (by decide) (by decide) (by decide) (by decide)

/-- Counterexample to C5 as stated: the re-push after a failed send
goes to the *back* of the queue, so when another record is buffered
the next successful `work()` does not send the same record.  With
records `['a'], ['b']` buffered and a failing transport, `work()` pops
and re-pushes `['a']` (count stays 2), but the next `work()` with a
succeeding transport sends `['b']`, not `['a']`. -/
theorem work_retry_counterexample :
    RP_Log_GetCount (RP_Log_Work (fun _ => -1) (some ⟨⟨.ALL, true, true⟩,
        (RB_Push (RB_Push zeroRingBuffer ['a']).1 ['b']).1⟩)).1 = 2 ∧
    RP_Log_GetCount (some (⟨⟨.ALL, true, true⟩,
        (RB_Push (RB_Push zeroRingBuffer ['a']).1 ['b']).1⟩ : RP_Log_t)) = 2 ∧
    (RP_Log_Work (fun _ => -1) (some ⟨⟨.ALL, true, true⟩,
        (RB_Push (RB_Push zeroRingBuffer ['a']).1 ['b']).1⟩)).2 =
      some ['a'] ∧
    (RP_Log_Work (fun _ => 0)
        (RP_Log_Work (fun _ => -1) (some ⟨⟨.ALL, true, true⟩,
          (RB_Push (RB_Push zeroRingBuffer ['a']).1 ['b']).1⟩)).1).2 =
      some ['b'] ∧
    (['b'] : List Char) ≠ ['a'] := by
  refine ⟨rfl, rfl, rfl, rfl, by decide⟩

/-- C5 amended: when `work()` pops a record and the transport send
fails, the record is re-pushed, so `get_count` after the call equals
the count before it; and *when the popped record was the only buffered
record*, the record attempted by the next `work()` call (in particular
the next one whose send succeeds) is that same record.  (With more
records buffered the re-push lands at the back of the queue and an
older record is sent first, as `work_retry_counterexample` shows.) -/
theorem work_retry_amended (cfg : RP_LogConfigParam_t)
    (rb : RP_LogRingBuffer_t) (transmitF transmitS : List Char → Int)
    (hF : ∀ r, transmitF r ≠ 0)
    (hcount : rb.count ≤ RP_LOG_RING_BUFFER_CNT)
    (hhead : rb.head < RP_LOG_RING_BUFFER_CNT)
    (hlen : rb.entries.length = RP_LOG_RING_BUFFER_CNT) :
    RP_Log_GetCount (RP_Log_Work transmitF (some ⟨cfg, rb⟩)).1 =
      RP_Log_GetCount (some (⟨cfg, rb⟩ : RP_Log_t)) ∧
    (rb.count = 1 → rb.head = (rb.tail + 1) % RP_LOG_RING_BUFFER_CNT →
      (rb.entries.getD rb.tail []).length ≤ RP_LOG_ENTRY_MAX_SIZE →
      (RP_Log_Work transmitF (some ⟨cfg, rb⟩)).2 =
        some (rb.entries.getD rb.tail []) ∧
      (RP_Log_Work transmitS (RP_Log_Work transmitF (some ⟨cfg, rb⟩)).1).2 =
        some (rb.entries.getD rb.tail [])) := by
  have h16 : RP_LOG_RING_BUFFER_CNT = 16 := rfl
  by_cases hc : rb.count = 0
  · have hpop : RB_Pop rb = (rb, none) := by
      simp [RB_Pop, RB_IsEmpty, hc]
    constructor
    · simp [RP_Log_Work, hpop, RP_Log_GetCount]
    · intro h1
      rw [hc] at h1
      exact absurd h1 (by decide)
  · have hempty : RB_IsEmpty rb = false := by simp [RB_IsEmpty, hc]
    have hpop : RB_Pop rb =
        ({ entries := rb.entries, head := rb.head
           tail := RB_GetNextIndex rb.tail RP_LOG_RING_BUFFER_CNT
           count := rb.count - 1 }, some (rb.entries.getD rb.tail [])) := by
      simp [RB_Pop, hempty]
    have hnotfull : RB_IsFull
        ({ entries := rb.entries, head := rb.head
           tail := RB_GetNextIndex rb.tail RP_LOG_RING_BUFFER_CNT
           count := rb.count - 1 } : RP_LogRingBuffer_t) = false := by
      simp only [RB_IsFull, decide_eq_false_iff_not, ge_iff_le, not_le]
      omega
    have hwork1 : RP_Log_Work transmitF (some ⟨cfg, rb⟩) =
        (some ⟨cfg,
          { entries := rb.entries.set rb.head
              ((rb.entries.getD rb.tail []).take RP_LOG_ENTRY_MAX_SIZE)
            head := RB_GetNextIndex rb.head RP_LOG_RING_BUFFER_CNT
            tail := RB_GetNextIndex rb.tail RP_LOG_RING_BUFFER_CNT
            count := rb.count - 1 + 1 }⟩,
          some (rb.entries.getD rb.tail [])) := by
      simp only [RP_Log_Work, hpop, if_pos (hF _)]
      simp [RB_Push, hnotfull]
    constructor
    · rw [hwork1]
      simp only [RP_Log_GetCount]
      omega
    · intro hone hloop hreclen
      refine ⟨by rw [hwork1], ?_⟩
      have htake : (rb.entries.getD rb.tail []).take RP_LOG_ENTRY_MAX_SIZE =
          rb.entries.getD rb.tail [] := List.take_of_length_le hreclen
      rw [htake] at hwork1
      have hidx : RB_GetNextIndex rb.tail RP_LOG_RING_BUFFER_CNT = rb.head := by
        rw [RB_GetNextIndex, ← hloop]
      have hgetD : (rb.entries.set rb.head
          (rb.entries.getD rb.tail [])).getD rb.head [] =
          rb.entries.getD rb.tail [] := by
        rw [List.getD_eq_getElem?_getD,
          List.getElem?_set_self (by rw [hlen]; exact hhead)]
        simp
      have hpop2 : RB_Pop
          { entries := rb.entries.set rb.head (rb.entries.getD rb.tail [])
            head := RB_GetNextIndex rb.head RP_LOG_RING_BUFFER_CNT
            tail := RB_GetNextIndex rb.tail RP_LOG_RING_BUFFER_CNT
            count := rb.count - 1 + 1 } =
          ({ entries := rb.entries.set rb.head (rb.entries.getD rb.tail [])
             head := RB_GetNextIndex rb.head RP_LOG_RING_BUFFER_CNT
             tail := RB_GetNextIndex
               (RB_GetNextIndex rb.tail RP_LOG_RING_BUFFER_CNT)
               RP_LOG_RING_BUFFER_CNT
             count := rb.count - 1 + 1 - 1 },
            some (rb.entries.getD rb.tail [])) := by
        rw [RB_Pop]
        rw [if_neg (by simp [RB_IsEmpty])]
        rw [hidx]
        dsimp only
        rw [hgetD]
      rw [hwork1]
      simp only [RP_Log_Work, hpop2]
      split <;> rfl

/-- Witness for C5's amended theorem: a single buffered record `['a']`,
a failing transport then a succeeding one — both `work()` calls attempt
`['a']` and the count is preserved by the failing call. -/
theorem work_retry_amended_witness :
    RP_Log_GetCount (RP_Log_Work (fun _ => -1) (some ⟨⟨.ALL, true, true⟩,
        (RB_Push zeroRingBuffer ['a']).1⟩)).1 =
      RP_Log_GetCount (some (⟨⟨.ALL, true, true⟩,
        (RB_Push zeroRingBuffer ['a']).1⟩ : RP_Log_t)) ∧
    (RP_Log_Work (fun _ => -1) (some ⟨⟨.ALL, true, true⟩,
        (RB_Push zeroRingBuffer ['a']).1⟩)).2 =
      some ((RB_Push zeroRingBuffer ['a']).1.entries.getD
        (RB_Push zeroRingBuffer ['a']).1.tail []) ∧
    (RP_Log_Work (fun _ => 0)
        (RP_Log_Work (fun _ => -1) (some ⟨⟨.ALL, true, true⟩,
          (RB_Push zeroRingBuffer ['a']).1⟩)).1).2 =
      some ((RB_Push zeroRingBuffer ['a']).1.entries.getD
        (RB_Push zeroRingBuffer ['a']).1.tail []) := by
  have h := work_retry_amended ⟨.ALL, true, true⟩
    (RB_Push zeroRingBuffer ['a']).1 (fun _ => -1) (fun _ => 0)
    (by intro r; norm_num) (by decide) (by decide) (by decide)
  exact ⟨h.1, (h.2 (by decide) (by decide) (by decide)).1,
    (h.2 (by decide) (by decide) (by decide)).2⟩

/-- Counterexample to C3 as stated: the overflow protection clamps
`len` to `RP_LOG_ENTRY_MAX_SIZE - 3 = 253` and then appends `\r\n`, so
an over-long message is stored with length 255, not
`RP_LOG_ENTRY_MAX_SIZE = 256`.  Concretely, a 300-byte message on the
zeroed facility (timestamps off, range ALL) stores a 255-byte record. -/
theorem truncation_counterexample :
    ((RP_Log_Write (some ⟨⟨.ALL, false, false⟩, zeroRingBuffer⟩) 0 .INFO
        "t.c".data 1 (List.replicate 300 'a')).1.map
      (fun log => (log.ring_buffer.entries.getD 0 []).length)) = some 255 ∧
    (255 : Nat) ≠ RP_LOG_ENTRY_MAX_SIZE := by
  refine ⟨rfl, by decide⟩

/-- C3 amended: when the rendered prefix plus message body reaches or
exceeds `RP_LOG_ENTRY_MAX_SIZE - 2`, the record is stored with length
exactly `RP_LOG_ENTRY_MAX_SIZE - 1` (255) and its final two bytes are
`'\r' '\n'`; an accepted write with room stores exactly this record at
the write index.  (`hpre` keeps the C code inside defined behaviour:
the prefix segments alone must not overrun the 256-byte buffer.) -/
theorem truncation_amended (useTs : Bool) (ticks : Nat)
    (level : RP_LogLevel_t) (file : List Char) (line : Nat)
    (msg : List Char)
    (_hpre : ((if useTs then tsSegment ticks else []) ++
      locSegment level file line).length ≤ RP_LOG_ENTRY_MAX_SIZE - 1)
    (hover : (formatFull useTs ticks level file line msg).length ≥
      RP_LOG_ENTRY_MAX_SIZE - 2) :
    (formatRecord useTs ticks level file line msg).length =
      RP_LOG_ENTRY_MAX_SIZE - 1 ∧
    (formatRecord useTs ticks level file line msg).drop
      (RP_LOG_ENTRY_MAX_SIZE - 3) = ['\r', '\n'] ∧
    (∀ log : RP_Log_t,
      levelPass log.config_param.output_range level = true →
      log.config_param.use_timestamp = useTs →
      log.ring_buffer.count < RP_LOG_RING_BUFFER_CNT →
      log.ring_buffer.head < RP_LOG_RING_BUFFER_CNT →
      log.ring_buffer.entries.length = RP_LOG_RING_BUFFER_CNT →
      ((RP_Log_Write (some log) ticks level file line msg).1.map
        (fun l => l.ring_buffer.entries.getD log.ring_buffer.head [])) =
        some (formatRecord useTs ticks level file line msg)) := by
  have h256 : RP_LOG_ENTRY_MAX_SIZE = 256 := rfl
  have hrec : formatRecord useTs ticks level file line msg =
      (formatFull useTs ticks level file line msg).take
        (RP_LOG_ENTRY_MAX_SIZE - 3) ++ ['\r', '\n'] := by
    rw [formatRecord]
    simp only [if_pos hover]
  have hlenrec : (formatRecord useTs ticks level file line msg).length =
      RP_LOG_ENTRY_MAX_SIZE - 1 := by
    rw [hrec]
    simp only [List.length_append, List.length_take]
    rw [h256] at hover ⊢
    simp only [List.length_cons, List.length_nil]
    omega
  refine ⟨hlenrec, ?_, ?_⟩
  · rw [hrec]
    refine List.drop_left' ?_
    simp only [List.length_take]
    rw [h256] at hover ⊢
    omega
  · intro log hpass hts hroom hhead hlen
    have hfull : RB_IsFull log.ring_buffer = false := by
      simp only [RB_IsFull, decide_eq_false_iff_not, ge_iff_le, not_le]
      omega
    have htake : (formatRecord useTs ticks level file line msg).take
        RP_LOG_ENTRY_MAX_SIZE = formatRecord useTs ticks level file line msg :=
      List.take_of_length_le (by rw [hlenrec]; omega)
    simp only [RP_Log_Write, hpass, if_pos, hts, RB_Push, hfull,
      Bool.false_eq_true, if_false, if_true]
    split
    · rename_i hcontra
      exact absurd rfl hcontra
    · simp only [Option.map_some']
      rw [htake, List.getD_eq_getElem?_getD,
        List.getElem?_set_self (by rw [hlen]; exact hhead)]
      simp

/-- Witness for C3's amended theorem: a 300-byte message (timestamps
off) yields a 255-byte record ending in `\r\n`, stored verbatim by a
write on the zeroed facility. -/
theorem truncation_amended_witness :
    (formatRecord false 0 .INFO "t.c".data 1
      (List.replicate 300 'a')).length = RP_LOG_ENTRY_MAX_SIZE - 1 ∧
    (formatRecord false 0 .INFO "t.c".data 1
      (List.replicate 300 'a')).drop (RP_LOG_ENTRY_MAX_SIZE - 3) =
      ['\r', '\n'] ∧
    ((RP_Log_Write (some ⟨⟨.ALL, false, false⟩, zeroRingBuffer⟩) 0 .INFO
        "t.c".data 1 (List.replicate 300 'a')).1.map
      (fun l => l.ring_buffer.entries.getD zeroRingBuffer.head [])) =
      some (formatRecord false 0 .INFO "t.c".data 1
        (List.replicate 300 'a')) := by
  have h := truncation_amended false 0 .INFO "t.c".data 1
    (List.replicate 300 'a') (by decide) (by decide)
  exact ⟨h.1, h.2.1, h.2.2 ⟨⟨.ALL, false, false⟩, zeroRingBuffer⟩ rfl rfl
    (by decide) (by decide) (by decide)⟩

/-- C6: for a non-truncated rendering, the record bytes with
timestamps enabled are exactly
`'[<ticks>] [<LEVEL>][<file>:<line>]: <message>\r\n'` with `<ticks>`
and `<line>` decimal; with timestamps disabled the `'[<ticks>] '`
segment is omitted entirely, so the record begins with `'[<LEVEL>]'`;
and every level token has exactly 5 characters. -/
theorem format_exact (ticks line : Nat) (level : RP_LogLevel_t)
    (file msg : List Char)
    (hfitT : (formatFull true ticks level file line msg).length <
      RP_LOG_ENTRY_MAX_SIZE - 2)
    (hfitF : (formatFull false ticks level file line msg).length <
      RP_LOG_ENTRY_MAX_SIZE - 2) :
    formatRecord true ticks level file line msg =
      '[' :: natDecimal ticks ++ ']' :: ' ' ::
      '[' :: g_level_names level ++ ']' ::
      '[' :: extractFilename file ++ ':' :: natDecimal line ++
      ']' :: ':' :: ' ' :: msg ++ ['\r', '\n'] ∧
    formatRecord false ticks level file line msg =
      '[' :: g_level_names level ++ ']' ::
      '[' :: extractFilename file ++ ':' :: natDecimal line ++
      ']' :: ':' :: ' ' :: msg ++ ['\r', '\n'] ∧
    (g_level_names level).length = 5 := by
  have h256 : RP_LOG_ENTRY_MAX_SIZE = 256 := rfl
  rw [h256] at hfitT hfitF
  refine ⟨?_, ?_, ?_⟩
  · simp only [formatRecord]
    rw [if_neg (by rw [h256]; omega)]
    simp [formatFull, tsSegment, locSegment]
  · simp only [formatRecord]
    rw [if_neg (by rw [h256]; omega)]
    simp [formatFull, locSegment]
  · cases level <;> rfl

/-- Witness for C6: the concrete write `[1234] [INFO ][main.c:45]:
System started\r\n` and its timestamp-free variant. -/
theorem format_exact_witness :
    formatRecord true 1234 .INFO "main.c".data 45 "System started".data =
      "[1234] [INFO ][main.c:45]: System started\r\n".data ∧
    formatRecord false 1234 .INFO "main.c".data 45 "System started".data =
      "[INFO ][main.c:45]: System started\r\n".data := by
  have h := format_exact 1234 45 .INFO "main.c".data "System started".data
    (by decide) (by decide)
  exact ⟨by rw [h.1]; rfl, by rw [h.2.1]; rfl⟩

/-- Spec-side definition (C7's wording): the last path component,
i.e. everything up to and including the last `'/'` *or* `'\'` is
stripped, whichever separator it is. -/
def lastComponentSpec (s : List Char) : List Char :=
  s.foldl (fun acc c => if c = '/' ∨ c = '\\' then [] else acc ++ [c]) []

/-- Counterexample to C7 as stated: the code consults `strrchr` for
`'\\'` first and `'/'` only when no backslash occurs, so on the mixed
path `a\b/c.c` it renders `b/c.c`, while the last path component
(everything after the last separator of either kind) is `c.c`. -/
theorem extractFilename_counterexample :
    extractFilename "a\\b/c.c".data = "b/c.c".data ∧
    lastComponentSpec "a\\b/c.c".data = "c.c".data ∧
    "b/c.c".data ≠ "c.c".data := by
  refine ⟨rfl, rfl, by decide⟩

lemma afterLastOcc_eq_none_iff (c : Char) :
    ∀ s : List Char, afterLastOcc c s = none ↔ c ∉ s := by
  intro s
  induction s with
  | nil => simp [afterLastOcc]
  | cons x xs ih =>
    rw [afterLastOcc]
    cases h : afterLastOcc c xs with
    | some r =>
      have hmem : c ∈ xs := by
        by_contra hmem
        rw [(ih).mpr hmem] at h
        exact Option.noConfusion h
      simp [hmem]
    | none =>
      have hmem : c ∉ xs := (ih).mp h
      constructor
      · intro hif
        rw [List.mem_cons]
        rintro (hcx | hcxs)
        · rw [if_pos hcx.symm] at hif
          exact Option.noConfusion hif
        · exact hmem hcxs
      · intro hnotin
        rw [if_neg (fun hxc => hnotin (List.mem_cons.mpr (Or.inl hxc.symm)))]

lemma afterLastOcc_split (c : Char) :
    ∀ s t : List Char, afterLastOcc c s = some t →
      (∃ pre, s = pre ++ c :: t) ∧ c ∉ t := by
  intro s
  induction s with
  | nil => intro t h; exact Option.noConfusion h
  | cons x xs ih =>
    intro t h
    rw [afterLastOcc] at h
    cases h' : afterLastOcc c xs with
    | some r =>
      simp only [h', Option.some.injEq] at h
      subst h
      obtain ⟨⟨pre, hpre⟩, hnot⟩ := ih _ h'
      exact ⟨⟨x :: pre, by rw [hpre]; rfl⟩, hnot⟩
    | none =>
      simp only [h'] at h
      by_cases hxc : x = c
      · rw [if_pos hxc] at h
        simp only [Option.some.injEq] at h
        subst h
        exact ⟨⟨[], by simp [hxc]⟩, (afterLastOcc_eq_none_iff c xs).mp h'⟩
      · rw [if_neg hxc] at h
        exact Option.noConfusion h

/-- C7 amended: the `<file>` component rendered into the record is the
suffix after the *last backslash* when the path contains any
backslash, otherwise the suffix after the *last slash* when it
contains a slash, otherwise the whole string.  (On paths mixing both
separators this differs from the last path component, as
`extractFilename_counterexample` shows: a `'/'` may survive after the
last `'\'`.) -/
theorem extractFilename_amended (file : List Char) :
    ('\\' ∈ file →
      (∃ pre, file = pre ++ '\\' :: extractFilename file) ∧
        '\\' ∉ extractFilename file) ∧
    ('\\' ∉ file → '/' ∈ file →
      (∃ pre, file = pre ++ '/' :: extractFilename file) ∧
        '/' ∉ extractFilename file) ∧
    ('\\' ∉ file → '/' ∉ file → extractFilename file = file) := by
  refine ⟨?_, ?_, ?_⟩
  · intro hmem
    cases h : afterLastOcc '\\' file with
    | none => exact absurd ((afterLastOcc_eq_none_iff _ _).mp h) (by simp [hmem])
    | some r =>
      have : extractFilename file = r := by rw [extractFilename, h]
      rw [this]
      exact afterLastOcc_split '\\' file r h
  · intro hnb hmem
    have hb : afterLastOcc '\\' file = none :=
      (afterLastOcc_eq_none_iff _ _).mpr hnb
    cases h : afterLastOcc '/' file with
    | none => exact absurd ((afterLastOcc_eq_none_iff _ _).mp h) (by simp [hmem])
    | some r =>
      have : extractFilename file = r := by rw [extractFilename, hb, h]
      rw [this]
      exact afterLastOcc_split '/' file r h
  · intro hnb hns
    rw [extractFilename, (afterLastOcc_eq_none_iff _ _).mpr hnb,
      (afterLastOcc_eq_none_iff _ _).mpr hns]

/-- Witness for C7's amended theorem, at the three kinds of inputs:
a backslash path, a slash path, and a separator-free name. -/
theorem extractFilename_amended_witness :
    ((∃ pre, "d\\f.c".data = pre ++ '\\' :: extractFilename "d\\f.c".data) ∧
      '\\' ∉ extractFilename "d\\f.c".data) ∧
    ((∃ pre, "d/f.c".data = pre ++ '/' :: extractFilename "d/f.c".data) ∧
      '/' ∉ extractFilename "d/f.c".data) ∧
    extractFilename "f.c".data = "f.c".data :=
  ⟨(extractFilename_amended "d\\f.c".data).1 (by decide),
   (extractFilename_amended "d/f.c".data).2.1 (by decide) (by decide),
   (extractFilename_amended "f.c".data).2.2 (by decide) (by decide)⟩

end RPLog
